import Mathlib

/-!
Verification of the `no-useless-else` ESLint rule
(src/lib/rules/no-useless-else.js) against its natural-language
specification.  The development shallowly embeds

* the AST fragment the rule inspects (spec section 3),
* the control-flow classifier (`checkForControlJump`,
  `naiveHasControlJump`, `hasElse`, `checkForIf`,
  `checkForControlJumpOrIf`, `alwaysHasControlFlow`, rule lines 100-177),
* the chain analyzer in the `IfStatement:exit` handler (lines 183-207),
* the token-level fix computation in `displayReport` (lines 36-92),
* and, for comparison, the code-path-based variant in
  src/unnamed/part_001.
-/

namespace NoUselessElse

/-- AST node shapes used by the rule (spec section 3): conditional
statements (`IfStatement` with `consequent` and optional `alternate`),
blocks, the four jump-statement kinds recognised by
`CONTROL_FLOW_TYPES` (line 11), and `other` for every other statement
kind (expression statements, loops, declarations, unrecognised
shapes). -/
inductive Node where
  | ifStmt (consequent : Node) (alternate : Option Node)
  | block (body : List Node)
  | ret
  | thr
  | brk
  | cont
  | other

/-- `node.type === "IfStatement"`. -/
def Node.isIf : Node → Bool
  | .ifStmt _ _ => true
  | _ => false

/-- `checkForControlJump` (lines 100-102): membership of the node's
type in `CONTROL_FLOW_TYPES = {Return, Throw, Break, Continue}`. -/
def checkForControlJump : Node → Bool
  | .ret | .thr | .brk | .cont => true
  | _ => false

/-- `naiveHasControlJump` (lines 112-120): for a `BlockStatement`,
test the block's last statement (`body[body.length - 1]`, with the
`lastChildNode &&` guard yielding `false` on an empty block);
otherwise test the node itself. -/
def naiveHasControlJump : Node → Bool
  | .block body =>
      match body.getLast? with
      | some lastChild => checkForControlJump lastChild
      | none => false
  | n => checkForControlJump n

/-- `hasElse` (lines 129-131): the node has an `alternate` (and a
`consequent`, always present on an `IfStatement`) whose type is not
`IfStatement`. -/
def hasElse : Node → Bool
  | .ifStmt _ (some a) => !a.isIf
  | _ => false

/-- `checkForIf` (lines 141-144): the node is an `IfStatement`,
`hasElse` holds, and both the alternate and the consequent pass
`naiveHasControlJump`. -/
def checkForIf : Node → Bool
  | .ifStmt c (some a) => !a.isIf && naiveHasControlJump a && naiveHasControlJump c
  | _ => false

/-- `checkForControlJumpOrIf` (lines 155-157). -/
def checkForControlJumpOrIf (n : Node) : Bool :=
  checkForControlJump n || checkForIf n

/-- `alwaysHasControlFlow` (lines 165-177): for a `BlockStatement`,
`node.body.some(checkForControlJumpOrIf)`; otherwise
`checkForControlJumpOrIf` of the node itself. -/
def alwaysHasControlFlow : Node → Bool
  | .block body => body.any checkForControlJumpOrIf
  | n => checkForControlJumpOrIf n

/-- The chain walk of the `IfStatement:exit` handler (lines 195-201):
follow `alternate` pointers while they are `IfStatement`s, collecting
each link's `consequent`; return `none` (the handler's early `return`)
as soon as a link has no `alternate`, and otherwise the collected
consequents together with the first non-`IfStatement` alternate (the
final else body). -/
def chainWalk : Node → Option (List Node × Node)
  | .ifStmt _ none => none
  | .ifStmt c (some a) =>
      if a.isIf then (chainWalk a).map (fun p => (c :: p.1, p.2))
      else some ([c], a)
  | _ => none

/-- Outcome of one `IfStatement:exit` analysis at a chain head
(lines 195-205): the final else body to report, when the walk
succeeds and `consequents.every(alwaysHasControlFlow)` holds. -/
def analyzeIf (n : Node) : Option Node :=
  match chainWalk n with
  | some (cs, alt) => if cs.all alwaysHasControlFlow then some alt else none
  | none => none

mutual
/-- Diagnostics (reported final else bodies) produced by the rule over
a subtree, in `IfStatement:exit` (depth-first exit) order.  The flag
records whether the subtree is the `alternate` of an `IfStatement`
parent: such nodes are skipped by the guard at lines 191-193. -/
def reportsAux : Bool → Node → List Node
  | _, .block body => reportsList body
  | isAlt, .ifStmt c alt =>
      reportsAux false c ++
        (match alt with
         | some a => reportsAux true a
         | none => []) ++
        (if isAlt then [] else (analyzeIf (.ifStmt c alt)).toList)
  | _, _ => []

/-- Diagnostics of a list of sibling statements, in order. -/
def reportsList : List Node → List Node
  | [] => []
  | n :: rest => reportsAux false n ++ reportsList rest
end

/-- Diagnostics of a whole program (a top-level statement sequence is
modelled as a block; a program node is not the alternate of any
`IfStatement`). -/
def ruleReports (program : Node) : List Node :=
  reportsAux false program

/-! ## Token-level model of `displayReport` (lines 36-92)

A source unit is its character sequence plus its ordered token list
(comments are not tokens).  The reported final else body is located by
the indices of its first and last tokens; `node.parent.consequent.type
=== "BlockStatement"` (line 59) is carried as a flag of the reference,
since the parent `IfStatement` is not itself a token. -/

/-- A source token: `type`, `value`, `loc.start.line`, and the
character range `[start, end)`. -/
structure Token where
  ttype : String
  value : String
  line : Nat
  tstart : Nat
  tend : Nat
deriving DecidableEq

def dummyToken : Token := ⟨"", "", 0, 0, 0⟩

/-- A source unit: source text and token stream. -/
structure SourceCtx where
  src : List Char
  tokens : List Token
deriving DecidableEq

/-- Reference to the reported final else body inside a `SourceCtx`:
index of its first token, index of its last token, and whether the
matching `if`'s consequent is a `BlockStatement`. -/
structure ElseRef where
  first : Nat
  last : Nat
  parentConsequentIsBlock : Bool
deriving DecidableEq

/-- Token at an index (the rule only reads indices that exist on real
input; out-of-range reads yield `dummyToken`). -/
def tokAt (ctx : SourceCtx) (i : Nat) : Token :=
  ctx.tokens.getD i dummyToken

/-- `sourceCode.getText(node)`: the character slice
`[node.start, node.end)`, where `node.start` is the first token's
start and `node.end` the last token's end. -/
def getText (ctx : SourceCtx) (r : ElseRef) : List Char :=
  (ctx.src.take (tokAt ctx r.last).tend).drop (tokAt ctx r.first).tstart

/-- `sourceCode.getTokenBefore(startToken)`: the `else` keyword token
(line 39), one position before the body's first token. -/
def elseTokenOf (ctx : SourceCtx) (r : ElseRef) : Token :=
  tokAt ctx (r.first - 1)

/-- The regex `/^[([/+`-]/` (lines 60 and 72): the string begins with
one of the six ASI-hazard characters. -/
def asiHazardStart (s : String) : Bool :=
  match s.toList with
  | [] => false
  | c :: _ => (("([/+`-" : String).toList).contains c

/-- `startToken.type === "Punctuator" && startToken.value === "\x7b"`
(lines 49 and 84): the else body starts with an opening brace. -/
def bracedStart (ctx : SourceCtx) (r : ElseRef) : Bool :=
  (tokAt ctx r.first).ttype == "Punctuator" && (tokAt ctx r.first).value == "\x7b"

/-- `firstTokenOfElseBlock` (lines 49-53): the body's first token,
skipping the opening brace of a braced body. -/
def firstTokenOfElseBlock (ctx : SourceCtx) (r : ElseRef) : Token :=
  if bracedStart ctx r then tokAt ctx (r.first + 1) else tokAt ctx r.first

/-- `ifBlockMaybeUnsafe && elseBlockUnsafe` (lines 59-64):
the matching `if`'s consequent is not a block, the token before the
`else` keyword (`lastIfToken`, two positions before the body's first
token) is not a semicolon, and the body's first substantive token
starts with an ASI-hazard character. -/
def fixHeadRisky (ctx : SourceCtx) (r : ElseRef) : Bool :=
  (!r.parentConsequentIsBlock && (tokAt ctx (r.first - 2)).value != ";")
    && asiHazardStart (firstTokenOfElseBlock ctx r).value

/-- Lines 66-82: the token before the body's last token
(`lastTokenOfElseBlock`) is not a semicolon, and the token after the
body (`nextToken`, absent at end of input) either starts with an
ASI-hazard character, or sits on `lastTokenOfElseBlock`'s line and is
not a closing brace. -/
def fixTailRisky (ctx : SourceCtx) (r : ElseRef) : Bool :=
  (tokAt ctx (r.last - 1)).value != ";" &&
    (match ctx.tokens[r.last + 1]? with
     | some nextToken =>
         asiHazardStart nextToken.value ||
           (nextToken.line == (tokAt ctx (r.last - 1)).line && nextToken.value != "\x7d")
     | none => false)

/-- The `fix` callback (lines 44-90): `none` models the `return null`
no-fix signal; otherwise the replacement range
`[elseToken.start, node.end)` together with the replacement text — the
body's source with its enclosing braces stripped (`source.slice(1,
-1)`, line 85) when braced, verbatim otherwise. -/
def computeFix (ctx : SourceCtx) (r : ElseRef) : Option (Nat × Nat × List Char) :=
  if fixHeadRisky ctx r then none
  else if fixTailRisky ctx r then none
  else
    some ((elseTokenOf ctx r).tstart, (tokAt ctx r.last).tend,
      if bracedStart ctx r then ((getText ctx r).drop 1).dropLast else getText ctx r)

/-- `fixer.replaceTextRange([s, e], repl)` applied by the external
patch engine: replace the character range `[s, e)` with `repl`. -/
def applyFix (src : List Char) (s e : Nat) (repl : List Char) : List Char :=
  src.take s ++ repl ++ src.drop e

end NoUselessElse

namespace NoUselessElse

/-! ## The specification's own classifier (spec section 4.1)

The spec describes the classifier differently from the code; to state
the claims that quote the spec's wording, that description is embedded
verbatim here and compared with the functions above. -/

mutual
/-- Modelled from the spec (section 4.1 `terminates`): a block is
terminating iff its last statement satisfies the single-statement
terminating test; a non-block body is tested directly. -/
def specTerminates : Node → Bool
  | .block body => specLast body
  | .ifStmt c (some a) => !a.isIf && specTerminates c && specTerminates a
  | .ifStmt _ none => false
  | n => checkForControlJump n

/-- Modelled from the spec: the single-statement test applied to the
last statement of a block (`false` for an empty block). -/
def specLast : List Node → Bool
  | [] => false
  | [n] => specSingle n
  | _ :: rest => specLast rest

/-- Modelled from the spec (section 4.1): the single-statement
terminating test — a jump statement, or a conditional with a
non-conditional alternate both of whose branches satisfy `terminates`
recursively. -/
def specSingle : Node → Bool
  | .ifStmt c (some a) => !a.isIf && specTerminates c && specTerminates a
  | .ifStmt _ none => false
  | .block _ => false
  | n => checkForControlJump n
end

/-- Modelled from the spec (section 4.2): a chain is eligible iff the
walk reaches a final else and every collected consequent satisfies the
spec's `terminates`. -/
def specEligible (n : Node) : Bool :=
  match chainWalk n with
  | some (cs, _) => cs.all specTerminates
  | none => false

/-- A node position is an eligible chain head for the code's analyzer:
not in alternate position, an `IfStatement`, and its analysis yields a
report. -/
def eligibleHead (isAlt : Bool) (n : Node) : Bool :=
  !isAlt && n.isIf && (analyzeIf n).isSome

mutual
/-- Number of eligible chain-head positions (for the code's analyzer)
in a subtree, mirroring the traversal of `reportsAux`. -/
def countEligible : Bool → Node → Nat
  | _, .block body => countEligibleList body
  | isAlt, .ifStmt c alt =>
      countEligible false c +
        (match alt with
         | some a => countEligible true a
         | none => 0) +
        (if eligibleHead isAlt (.ifStmt c alt) then 1 else 0)
  | _, _ => 0

/-- Eligible chain-head positions in a statement list. -/
def countEligibleList : List Node → Nat
  | [] => 0
  | n :: rest => countEligible false n + countEligibleList rest
end

/-- A node position is an eligible chain head for the spec's analyzer
(sections 4.1-4.2). -/
def specEligibleHead (isAlt : Bool) (n : Node) : Bool :=
  !isAlt && n.isIf && specEligible n

mutual
/-- Number of chain-head positions eligible per the spec's classifier. -/
def specCountEligible : Bool → Node → Nat
  | _, .block body => specCountEligibleList body
  | isAlt, .ifStmt c alt =>
      specCountEligible false c +
        (match alt with
         | some a => specCountEligible true a
         | none => 0) +
        (if specEligibleHead isAlt (.ifStmt c alt) then 1 else 0)
  | _, _ => 0

/-- Spec-eligible chain-head positions in a statement list. -/
def specCountEligibleList : List Node → Nat
  | [] => 0
  | n :: rest => specCountEligible false n + specCountEligibleList rest
end

/-! ## Chain constructors used to state the chain-level claims -/

/-- `mkChain cs e`: the `if`/`else if` chain whose consequents are
`cs` and whose final else body is `e` (`mkChain [] e = e`). -/
def mkChain : List Node → Node → Node
  | [], e => e
  | c :: rest, e => .ifStmt c (some (mkChain rest e))

/-- `mkOpenChain c cs`: the chain with consequents `c :: cs` whose
last link has no alternate at all (ends in a plain `if`). -/
def mkOpenChain : Node → List Node → Node
  | c, [] => .ifStmt c none
  | c, c2 :: rest => .ifStmt c (some (mkOpenChain c2 rest))

/-- Diagnostics produced inside the branch bodies of a chain (the
reports of each consequent, traversed in non-alternate position). -/
def chainBodyReports (cs : List Node) : List Node :=
  (cs.map (reportsAux false)).flatten

/-! ## The code-path-based variant (src/unnamed/part_001)

Its collection logic (lines 92-117 of part_001) is in the source: a
consequent of an `IfStatement` that has an alternate is added to the
set when its code path segment starts, removed when that segment ends,
and every consequent still in the set at `Program:exit` causes
`displayReport(node.parent.alternate)`.  Whether the segment ends
before `Program:exit` is decided by ESLint's code-path analysis
engine, which is not under src/ and is modelled from the spec
below. -/

mutual
/-- Modelled from the spec: ESLint's code-path analysis (the engine is
not under src/).  A consequent's code path segment never ends before
`Program:exit` iff control can never fall through the end of the
consequent: jump statements never fall through, a block never falls
through iff some statement in it never falls through, and an
`if`/`else` never falls through iff neither branch does. -/
def neverFallsThrough : Node → Bool
  | .ret | .thr | .brk | .cont => true
  | .block body => blockNeverFalls body
  | .ifStmt c (some a) => neverFallsThrough c && neverFallsThrough a
  | .ifStmt _ none => false
  | .other => false

/-- Modelled from the spec: fall-through of a statement sequence. -/
def blockNeverFalls : List Node → Bool
  | [] => false
  | n :: rest => neverFallsThrough n || blockNeverFalls rest
end

mutual
/-- Diagnostics of the code-path-based variant: for every
`IfStatement` with an alternate whose consequent's segment never ends
(lines 92-106 of part_001), report the alternate (line 112-115), in
segment-start (depth-first pre-) order. -/
def cpReportsAux : Node → List Node
  | .block body => cpReportsList body
  | .ifStmt c alt =>
      (match alt with
       | some a =>
           (if neverFallsThrough c then [a] else []) ++ cpReportsAux c ++ cpReportsAux a
       | none => cpReportsAux c)
  | _ => []

/-- Code-path-variant diagnostics of a statement list. -/
def cpReportsList : List Node → List Node
  | [] => []
  | n :: rest => cpReportsAux n ++ cpReportsList rest
end

/-- Code-path-variant diagnostics of a whole program. -/
def cpReports (program : Node) : List Node :=
  cpReportsAux program

/-! ## Exception-aware model of the classifier and analyzer

JavaScript raises only when a property of `undefined` is read.  The
functions below re-run the classifier and analyzer over
possibly-`undefined` values (`Option Node`), every property read on a
possibly-`undefined` value going through `deref`; the `Except` layer
makes a raise observable, so totality (claim C9) is the statement that
they always return `.ok`. -/

/-- Reading a property of `undefined` raises; reading a property of a
node does not (a missing property on a node object merely yields
`undefined`, it does not raise). -/
def deref : Option Node → Except String Node
  | some n => .ok n
  | none => .error "TypeError: cannot read property of undefined"

/-- The `alternate` property (present only on `IfStatement`s). -/
def Node.alternateF : Node → Option Node
  | .ifStmt _ a => a
  | _ => none

/-- The `consequent` property (present only on `IfStatement`s). -/
def Node.consequentF : Node → Option Node
  | .ifStmt c _ => some c
  | _ => none

/-- `checkForControlJump` reading `node.type` (line 101). -/
def checkForControlJumpE (v : Option Node) : Except String Bool := do
  let n ← deref v
  pure (checkForControlJump n)

/-- `naiveHasControlJump` (lines 112-120): reads `node.type`; on a
block, `body[body.length - 1]` is `undefined` when the block is empty
and the `lastChildNode &&` guard short-circuits before any further
property read. -/
def naiveHasControlJumpE (v : Option Node) : Except String Bool := do
  let n ← deref v
  match n with
  | .block body =>
      match body.getLast? with
      | none => pure false
      | some lastChild => checkForControlJumpE (some lastChild)
  | _ => checkForControlJumpE (some n)

/-- `hasElse` (lines 129-131): `node.alternate && node.consequent &&
node.alternate.type !== "IfStatement"`, with both `&&` guards
short-circuiting on falsy (`undefined`) operands. -/
def hasElseE (v : Option Node) : Except String Bool := do
  let n ← deref v
  match n.alternateF with
  | none => pure false
  | some a =>
      match n.consequentF with
      | none => pure false
      | some _ => do
          let an ← deref (some a)
          pure (!an.isIf)

/-- `checkForIf` (lines 141-144), reading `node.type` and passing the
(possibly-`undefined`) `alternate` and `consequent` on. -/
def checkForIfE (v : Option Node) : Except String Bool := do
  let n ← deref v
  if n.isIf then do
    let he ← hasElseE (some n)
    if he then do
      let b ← naiveHasControlJumpE n.alternateF
      if b then naiveHasControlJumpE n.consequentF else pure false
    else pure false
  else pure false

/-- `checkForControlJumpOrIf` (lines 155-157). -/
def checkForControlJumpOrIfE (v : Option Node) : Except String Bool := do
  let b ← checkForControlJumpE v
  if b then pure true else checkForIfE v

/-- `Array.prototype.some` over the body (line 169). -/
def anyE : List Node → Except String Bool
  | [] => pure false
  | n :: rest => do
      let b ← checkForControlJumpOrIfE (some n)
      if b then pure true else anyE rest

/-- `alwaysHasControlFlow` (lines 165-177). -/
def alwaysHasControlFlowE (v : Option Node) : Except String Bool := do
  let n ← deref v
  match n with
  | .block body => anyE body
  | _ => checkForControlJumpOrIfE (some n)

/-- `Array.prototype.every` over the consequents (line 203). -/
def allE : List Node → Except String Bool
  | [] => pure true
  | n :: rest => do
      let b ← alwaysHasControlFlowE (some n)
      if b then allE rest else pure false

/-- The chain walk of lines 195-201: each iteration reads `node.type`
and `node.alternate` of a defined node. -/
def chainWalkE : Node → Except String (Option (List Node × Node))
  | .ifStmt _ none => pure none
  | .ifStmt c (some a) =>
      if a.isIf then do
        let r ← chainWalkE a
        pure (r.map fun p => (c :: p.1, p.2))
      else pure (some ([c], a))
  | _ => pure none

/-- The whole `IfStatement:exit` analysis (lines 195-205) in the
exception-aware model. -/
def analyzeIfE (n : Node) : Except String (Option Node) := do
  match ← chainWalkE n with
  | none => pure none
  | some (cs, alt) => do
      let b ← allE cs
      pure (if b then some alt else none)

/-! ## Concrete source units for the spec's scenarios -/

/-- Scenario 1 source:
`function f(){ if (x) { return y; } else { return z; } }`. -/
def srcC1 : String := "function f(){ if (x) { return y; } else { return z; } }"

/-- Token stream of scenario 1 (ESLint tokens with character offsets). -/
def tokensC1 : List Token :=
  [⟨"Keyword", "function", 1, 0, 8⟩,
   ⟨"Identifier", "f", 1, 9, 10⟩,
   ⟨"Punctuator", "(", 1, 10, 11⟩,
   ⟨"Punctuator", ")", 1, 11, 12⟩,
   ⟨"Punctuator", "\x7b", 1, 12, 13⟩,
   ⟨"Keyword", "if", 1, 14, 16⟩,
   ⟨"Punctuator", "(", 1, 17, 18⟩,
   ⟨"Identifier", "x", 1, 18, 19⟩,
   ⟨"Punctuator", ")", 1, 19, 20⟩,
   ⟨"Punctuator", "\x7b", 1, 21, 22⟩,
   ⟨"Keyword", "return", 1, 23, 29⟩,
   ⟨"Identifier", "y", 1, 30, 31⟩,
   ⟨"Punctuator", ";", 1, 31, 32⟩,
   ⟨"Punctuator", "\x7d", 1, 33, 34⟩,
   ⟨"Keyword", "else", 1, 35, 39⟩,
   ⟨"Punctuator", "\x7b", 1, 40, 41⟩,
   ⟨"Keyword", "return", 1, 42, 48⟩,
   ⟨"Identifier", "z", 1, 49, 50⟩,
   ⟨"Punctuator", ";", 1, 50, 51⟩,
   ⟨"Punctuator", "\x7d", 1, 52, 53⟩,
   ⟨"Punctuator", "\x7d", 1, 54, 55⟩]

def ctxC1 : SourceCtx := ⟨srcC1.toList, tokensC1⟩

/-- The final else body `{ return z; }` of scenario 1: tokens 15-19,
with a braced consequent on the matching `if`. -/
def refC1 : ElseRef := ⟨15, 19, true⟩

/-- AST of scenario 1 (the function body block). -/
def astC1 : Node := .block [.ifStmt (.block [.ret]) (some (.block [.ret]))]

/-- Scenario 4 source: `if (foo) return bar; else (foo).bar();`. -/
def srcC4 : String := "if (foo) return bar; else (foo).bar();"

/-- Token stream of scenario 4. -/
def tokensC4 : List Token :=
  [⟨"Keyword", "if", 1, 0, 2⟩,
   ⟨"Punctuator", "(", 1, 3, 4⟩,
   ⟨"Identifier", "foo", 1, 4, 7⟩,
   ⟨"Punctuator", ")", 1, 7, 8⟩,
   ⟨"Keyword", "return", 1, 9, 15⟩,
   ⟨"Identifier", "bar", 1, 16, 19⟩,
   ⟨"Punctuator", ";", 1, 19, 20⟩,
   ⟨"Keyword", "else", 1, 21, 25⟩,
   ⟨"Punctuator", "(", 1, 26, 27⟩,
   ⟨"Identifier", "foo", 1, 27, 30⟩,
   ⟨"Punctuator", ")", 1, 30, 31⟩,
   ⟨"Punctuator", ".", 1, 31, 32⟩,
   ⟨"Identifier", "bar", 1, 32, 35⟩,
   ⟨"Punctuator", "(", 1, 35, 36⟩,
   ⟨"Punctuator", ")", 1, 36, 37⟩,
   ⟨"Punctuator", ";", 1, 37, 38⟩]

def ctxC4 : SourceCtx := ⟨srcC4.toList, tokensC4⟩

/-- The final else body `(foo).bar();` of scenario 4: tokens 8-15,
with an unbraced consequent (`return bar;`) on the matching `if`. -/
def refC4 : ElseRef := ⟨8, 15, false⟩

/-- AST of scenario 4: an `if` whose consequent is a return statement
and whose alternate is an expression statement. -/
def astC4 : Node := .block [.ifStmt .ret (some .other)]

/-- AST of scenario 5 (nested chains):
`if (x) { if (y) { return y; } else { return x; } } else { return z; }`. -/
def ast5 : Node :=
  .block [.ifStmt (.block [.ifStmt (.block [.ret]) (some (.block [.ret]))])
    (some (.block [.ret]))]

/-- Source of the suppressed-fix example
`if (foo) return bar \nelse { [1, 2, 3].map(foo) }` (an unbraced
consequent without a trailing semicolon, the else body starting with
`[`). -/
def srcC3 : String := "if (foo) return bar \nelse { [1, 2, 3].map(foo) }"

/-- Token stream of the suppressed-fix example (the else body spans
line 2). -/
def tokensC3 : List Token :=
  [⟨"Keyword", "if", 1, 0, 2⟩,
   ⟨"Punctuator", "(", 1, 3, 4⟩,
   ⟨"Identifier", "foo", 1, 4, 7⟩,
   ⟨"Punctuator", ")", 1, 7, 8⟩,
   ⟨"Keyword", "return", 1, 9, 15⟩,
   ⟨"Identifier", "bar", 1, 16, 19⟩,
   ⟨"Keyword", "else", 2, 21, 25⟩,
   ⟨"Punctuator", "\x7b", 2, 26, 27⟩,
   ⟨"Punctuator", "[", 2, 28, 29⟩,
   ⟨"Numeric", "1", 2, 29, 30⟩,
   ⟨"Punctuator", ",", 2, 30, 31⟩,
   ⟨"Numeric", "2", 2, 32, 33⟩,
   ⟨"Punctuator", ",", 2, 33, 34⟩,
   ⟨"Numeric", "3", 2, 35, 36⟩,
   ⟨"Punctuator", "]", 2, 36, 37⟩,
   ⟨"Punctuator", ".", 2, 37, 38⟩,
   ⟨"Identifier", "map", 2, 38, 41⟩,
   ⟨"Punctuator", "(", 2, 41, 42⟩,
   ⟨"Identifier", "foo", 2, 42, 45⟩,
   ⟨"Punctuator", ")", 2, 45, 46⟩,
   ⟨"Punctuator", "\x7d", 2, 47, 48⟩]

def ctxC3 : SourceCtx := ⟨srcC3.toList, tokensC3⟩

/-- The final else body `{ [1, 2, 3].map(foo) }`: tokens 7-20, with an
unbraced consequent on the matching `if`. -/
def refC3 : ElseRef := ⟨7, 20, false⟩

/-- AST whose chain branch holds a jump that is not the block's last
statement: `if (c) { throw e; f(); } else { g(); }`. -/
def astC8x : Node := .block [.ifStmt (.block [.thr, .other]) (some (.block [.other]))]

/-- AST for the C2 counterexample:
`if (c) { return x; f(); } else { g(); }`. -/
def astC2 : Node := .block [.ifStmt (.block [.ret, .other]) (some (.block [.other]))]

/-- Single-statement branch that is a fully terminating nested
conditional: `if (b) return x; else return y;` used as the consequent
of an outer conditional whose alternate is a return. -/
def n5x : Node := .ifStmt (.ifStmt .ret (some .ret)) (some .ret)

/-- AST of `if (x) { return x; } else if (y) { return false; }` (test
`foop`, src/tests/lib/rules/no-useless-else.js lines 164-167). -/
def astFoop : Node := .block [.ifStmt (.block [.ret]) (some (.ifStmt (.block [.ret]) none))]

/-! ## Theorems -/

theorem fixHeadRisky_iff (ctx : SourceCtx) (r : ElseRef) :
    fixHeadRisky ctx r = true ↔
      (r.parentConsequentIsBlock = false
        ∧ (tokAt ctx (r.first - 2)).value ≠ ";"
        ∧ asiHazardStart (firstTokenOfElseBlock ctx r).value = true) := by
  simp [fixHeadRisky, Bool.and_eq_true, Bool.not_eq_true', bne_iff_ne, and_assoc]

theorem fixTailRisky_iff (ctx : SourceCtx) (r : ElseRef) :
    fixTailRisky ctx r = true ↔
      ((tokAt ctx (r.last - 1)).value ≠ ";"
        ∧ ∃ nt, ctx.tokens[r.last + 1]? = some nt
            ∧ (asiHazardStart nt.value = true
                ∨ (nt.line = (tokAt ctx (r.last - 1)).line ∧ nt.value ≠ "\x7d"))) := by
  cases h : ctx.tokens[r.last + 1]? with
  | none => simp [fixTailRisky, h, bne_iff_ne]
  | some nt =>
      simp [fixTailRisky, h, bne_iff_ne, Bool.and_eq_true, Bool.or_eq_true, beq_iff_eq]

/-- C3: the fix computation yields the no-fix signal exactly when the
head hazard holds (consequent unbraced, no semicolon before `else`,
else body starting with an ASI-hazard character) or the tail hazard
holds (no semicolon before the body's closing boundary, and a
following token that starts with an ASI-hazard character or sits on
the same line as the body's last content token without being a closing
brace); otherwise a replacement is produced. -/
theorem C3_fix_withheld_iff (ctx : SourceCtx) (r : ElseRef) :
    computeFix ctx r = none ↔
      ((r.parentConsequentIsBlock = false
          ∧ (tokAt ctx (r.first - 2)).value ≠ ";"
          ∧ asiHazardStart (firstTokenOfElseBlock ctx r).value = true)
        ∨ ((tokAt ctx (r.last - 1)).value ≠ ";"
            ∧ ∃ nt, ctx.tokens[r.last + 1]? = some nt
                ∧ (asiHazardStart nt.value = true
                    ∨ (nt.line = (tokAt ctx (r.last - 1)).line ∧ nt.value ≠ "\x7d")))) := by
  rw [← fixHeadRisky_iff, ← fixTailRisky_iff]
  by_cases h1 : fixHeadRisky ctx r = true <;> by_cases h2 : fixTailRisky ctx r = true <;>
    simp [computeFix, h1, h2]

/-- C3 witness: on `if (foo) return bar \nelse { [1, 2, 3].map(foo) }`
the fix is withheld (the head hazard holds). -/
theorem C3_fix_withheld_iff_witness : computeFix ctxC3 refC3 = none :=
  (C3_fix_withheld_iff ctxC3 refC3).mpr (Or.inl ⟨rfl, by decide, by decide⟩)

/-- C1: on scenario 1 the rule reports exactly the final else body,
anchored at the `else` keyword token, and the fix replaces the range
from the `else` keyword's start through the body's end with the body's
source stripped of its braces, yielding the spec's output; in general
every produced fix's replacement text is the body's source with first
and last characters removed when the body starts with a brace token
and the verbatim source otherwise. -/
theorem C1_fix_strips_braces :
    (ruleReports astC1 = [.block [.ret]]
      ∧ (elseTokenOf ctxC1 refC1).ttype = "Keyword"
      ∧ (elseTokenOf ctxC1 refC1).value = "else"
      ∧ computeFix ctxC1 refC1 = some (35, 53, (" return z; " : String).toList)
      ∧ applyFix ctxC1.src 35 53 (" return z; " : String).toList
          = ("function f(){ if (x) { return y; }  return z;  }" : String).toList)
    ∧ ∀ (ctx : SourceCtx) (r : ElseRef) (s e : Nat) (txt : List Char),
        computeFix ctx r = some (s, e, txt) →
          txt = if bracedStart ctx r then ((getText ctx r).drop 1).dropLast
                else getText ctx r := by
  constructor
  · exact ⟨rfl, rfl, rfl, by decide, by decide⟩
  · intro ctx r s e txt h
    unfold computeFix at h
    split at h
    · exact absurd h (by simp)
    · split at h
      · exact absurd h (by simp)
      · simp only [Option.some.injEq, Prod.mk.injEq] at h
        exact h.2.2.symm

/-- C1 witness: the general brace-stripping law applied to scenario 1. -/
theorem C1_fix_strips_braces_witness :
    (" return z; " : String).toList
      = if bracedStart ctxC1 refC1 then ((getText ctxC1 refC1).drop 1).dropLast
        else getText ctxC1 refC1 :=
  C1_fix_strips_braces.2 ctxC1 refC1 35 53 (" return z; " : String).toList (by decide)

/-- C2 counterexample: the block `{ return x; f(); }` has a jump that
is not its last statement, yet `alwaysHasControlFlow` classifies it as
terminating (line 169 uses `body.some`, not the last statement), its
last statement fails the single-statement test, and the chain
`if (c) { return x; f(); } else { g(); }` IS reported. -/
theorem C2_counterexample :
    alwaysHasControlFlow (.block [.ret, .other]) = true
    ∧ [Node.ret, Node.other].getLast? = some Node.other
    ∧ specSingle Node.other = false
    ∧ checkForControlJumpOrIf Node.other = false
    ∧ ruleReports astC2 = [.block [.other]] :=
  ⟨rfl, rfl, rfl, rfl, rfl⟩

/-- C2 amended: a block branch is classified terminating iff SOME
statement of its body satisfies the single-statement test
(`body.some`, line 169); only the nested classifier
`naiveHasControlJump` applies the last-statement rule; and the chain
whose branch holds a non-final jump is reported. -/
theorem C2_amended_any_statement :
    (∀ body : List Node,
        alwaysHasControlFlow (.block body) = true ↔
          ∃ n ∈ body, checkForControlJumpOrIf n = true)
    ∧ (∀ body : List Node,
        naiveHasControlJump (.block body) = true ↔
          ∃ l, body.getLast? = some l ∧ checkForControlJump l = true)
    ∧ ruleReports astC2 = [.block [.other]] := by
  refine ⟨?_, ?_, rfl⟩
  · intro body
    simp [alwaysHasControlFlow, List.any_eq_true]
  · intro body
    cases h : body.getLast? with
    | none => simp [naiveHasControlJump, h]
    | some l => simp [naiveHasControlJump, h]

/-- C2 witness. -/
theorem C2_amended_any_statement_witness :
    alwaysHasControlFlow (.block [.ret]) = true :=
  (C2_amended_any_statement.1 [.ret]).mpr ⟨.ret, by simp, rfl⟩

/-- C4 counterexample: on `if (foo) return bar; else (foo).bar();` the
rule reports the else body but the fix is NOT withheld: a concrete
replacement is produced (the token before `else` is the semicolon of
`return bar;`, so the head hazard fails). -/
theorem C4_counterexample :
    ruleReports astC4 = [.other]
    ∧ computeFix ctxC4 refC4 = some (21, 38, ("(foo).bar();" : String).toList) :=
  ⟨rfl, by decide⟩

/-- C4 amended: the diagnostic is produced AND a fix is produced,
yielding `if (foo) return bar; (foo).bar();`, because the consequent
ends in a semicolon (so `ifBlockMaybeUnsafe` is false even though the
consequent is unbraced and the else body begins with a parenthesis). -/
theorem C4_amended_fix_produced :
    ruleReports astC4 = [.other]
    ∧ (elseTokenOf ctxC4 refC4).value = "else"
    ∧ (tokAt ctxC4 (refC4.first - 2)).value = ";"
    ∧ refC4.parentConsequentIsBlock = false
    ∧ asiHazardStart (firstTokenOfElseBlock ctxC4 refC4).value = true
    ∧ computeFix ctxC4 refC4 = some (21, 38, ("(foo).bar();" : String).toList)
    ∧ applyFix ctxC4.src 21 38 ("(foo).bar();" : String).toList
        = ("if (foo) return bar; (foo).bar();" : String).toList :=
  ⟨rfl, rfl, rfl, rfl, by decide, by decide, by decide⟩

/-- C5 counterexample: a single-statement branch that is a nested
conditional with a genuine else and recursively terminating branches
on both sides (`if (b) return x; else return y;` under an outer
conditional with a `return` alternate) satisfies the spec's recursive
test, yet `checkForIf` classifies it as NOT terminating, because
`naiveHasControlJump` does not recurse into nested conditionals. -/
theorem C5_counterexample :
    specSingle n5x = true
    ∧ specTerminates (.ifStmt .ret (some .ret)) = true
    ∧ specTerminates Node.ret = true
    ∧ Node.isIf Node.ret = false
    ∧ alwaysHasControlFlow n5x = false
    ∧ checkForControlJumpOrIf n5x = false :=
  ⟨rfl, rfl, rfl, rfl, rfl, rfl⟩

/-- C5 amended: a single-statement conditional branch is classified
terminating iff it has a non-conditional alternate and both the
alternate and the consequent pass the one-level `naiveHasControlJump`
test (a block's last statement is a jump / the statement itself is a
jump; no deeper recursion); a conditional with no alternate or with a
conditional alternate is never terminating. -/
theorem C5_amended_one_level :
    (∀ (c : Node) (alt : Option Node),
        alwaysHasControlFlow (.ifStmt c alt) = true ↔
          ∃ a, alt = some a ∧ a.isIf = false
            ∧ naiveHasControlJump a = true ∧ naiveHasControlJump c = true)
    ∧ (∀ c : Node, alwaysHasControlFlow (.ifStmt c none) = false)
    ∧ (∀ (c c2 : Node) (a2 : Option Node),
        alwaysHasControlFlow (.ifStmt c (some (.ifStmt c2 a2))) = false) := by
  refine ⟨?_, fun c => rfl, fun c c2 a2 => rfl⟩
  intro c alt
  cases alt with
  | none =>
      simp [alwaysHasControlFlow, checkForControlJumpOrIf, checkForIf, checkForControlJump]
  | some a =>
      simp [alwaysHasControlFlow, checkForControlJumpOrIf, checkForIf, checkForControlJump,
        Bool.and_eq_true, Bool.not_eq_true', and_assoc]

/-- C5 witness. -/
theorem C5_amended_one_level_witness :
    alwaysHasControlFlow (.ifStmt .ret (some .brk)) = true :=
  (C5_amended_one_level.1 .ret (some .brk)).mpr ⟨.brk, rfl, rfl, rfl, rfl⟩

/-- C8 counterexample: `if (c) { throw e; f(); } else { g(); }` emits
one diagnostic although it contains zero chains that are eligible
under the spec's own terminates test (the jump is not the block's last
statement), so the diagnostic count does not equal the spec-eligible
chain count. -/
theorem C8_counterexample :
    (ruleReports astC8x).length = 1 ∧ specCountEligible false astC8x = 0 :=
  ⟨rfl, rfl⟩

theorem mkChain_cons (c : Node) (cs : List Node) (e : Node) :
    mkChain (c :: cs) e = .ifStmt c (some (mkChain cs e)) := rfl

theorem mkChain_isIf (c : Node) (cs : List Node) (e : Node) :
    (mkChain (c :: cs) e).isIf = true := rfl

theorem chainWalk_mkChain (e : Node) (he : e.isIf = false) :
    ∀ (cs : List Node) (c : Node), chainWalk (mkChain (c :: cs) e) = some (c :: cs, e) := by
  intro cs
  induction cs with
  | nil =>
      intro c
      simp [mkChain, chainWalk, he]
  | cons c2 rest ih =>
      intro c
      rw [mkChain_cons]
      show (if (mkChain (c2 :: rest) e).isIf = true then
              (chainWalk (mkChain (c2 :: rest) e)).map (fun p => (c :: p.1, p.2))
            else some ([c], mkChain (c2 :: rest) e)) = some (c :: c2 :: rest, e)
      simp [mkChain_isIf, ih c2]

theorem mkOpenChain_isIf (c : Node) (cs : List Node) :
    (mkOpenChain c cs).isIf = true := by
  cases cs <;> rfl

theorem chainWalk_mkOpenChain :
    ∀ (cs : List Node) (c : Node), chainWalk (mkOpenChain c cs) = none := by
  intro cs
  induction cs with
  | nil => intro c; rfl
  | cons c2 rest ih =>
      intro c
      simp [mkOpenChain, chainWalk, mkOpenChain_isIf, ih c2]

theorem chainBodyReports_cons (c : Node) (cs : List Node) :
    chainBodyReports (c :: cs) = reportsAux false c ++ chainBodyReports cs := by
  simp [chainBodyReports]

theorem reportsAux_ifStmt (isAlt : Bool) (c : Node) (alt : Option Node) :
    reportsAux isAlt (.ifStmt c alt)
      = reportsAux false c ++
          (match alt with
           | some a => reportsAux true a
           | none => []) ++
        (if isAlt then [] else (analyzeIf (.ifStmt c alt)).toList) := by
  cases isAlt <;> cases alt <;> rfl

theorem reportsAux_mkOpenChain :
    ∀ (cs : List Node) (c : Node) (isAlt : Bool),
      reportsAux isAlt (mkOpenChain c cs) = chainBodyReports (c :: cs) := by
  intro cs
  induction cs with
  | nil =>
      intro c isAlt
      cases isAlt <;>
        simp [mkOpenChain, reportsAux, analyzeIf, chainWalk, chainBodyReports]
  | cons c2 rest ih =>
      intro c isAlt
      have hw : chainWalk (.ifStmt c (some (mkOpenChain c2 rest))) = none := by
        have := chainWalk_mkOpenChain (c2 :: rest) c
        simpa [mkOpenChain] using this
      cases isAlt <;>
        simp [mkOpenChain, reportsAux, analyzeIf, hw, ih c2,
          chainBodyReports_cons, List.append_assoc]

/-- C7: the chain walk collects the consequents while following
alternate pointers to the first non-conditional alternate, returns the
abort signal as soon as a link has no alternate, and a chain ending in
a plain `if` with no final else produces no diagnostic of its own in
any traversal position — only the reports from inside its branch
bodies remain. -/
theorem C7_open_chain_never_reported :
    ∀ (c e : Node) (cs : List Node) (isAlt : Bool),
      (e.isIf = false → chainWalk (mkChain (c :: cs) e) = some (c :: cs, e))
      ∧ chainWalk (mkOpenChain c cs) = none
      ∧ reportsAux isAlt (mkOpenChain c cs) = chainBodyReports (c :: cs) :=
  fun c e cs isAlt =>
    ⟨fun he => chainWalk_mkChain e he cs c,
     chainWalk_mkOpenChain cs c,
     reportsAux_mkOpenChain cs c isAlt⟩

/-- C7 witness. -/
theorem C7_open_chain_never_reported_witness :
    chainWalk (mkChain [Node.ret] Node.other) = some ([Node.ret], Node.other) :=
  (C7_open_chain_never_reported Node.ret Node.other [] false).1 rfl

/-- C6: analysis of a complete chain is anchored at the outermost
link only — in alternate position (as an inner `else if` link of an
enclosing chain) the whole chain contributes exactly the diagnostics
of its branch bodies and final else body, with NO head diagnostic of
its own, and in head position it contributes at most ONE additional
diagnostic (the final else body, exactly when every consequent is
classified terminating); no inner link is ever re-analyzed as a
duplicate chain head. -/
theorem C6_chain_anchored_once :
    ∀ (e : Node), e.isIf = false →
      ∀ (cs : List Node) (c : Node) (isAlt : Bool),
        reportsAux isAlt (mkChain (c :: cs) e)
          = chainBodyReports (c :: cs) ++ reportsAux true e
              ++ (if isAlt then []
                  else if (c :: cs).all alwaysHasControlFlow then [e] else []) := by
  intro e he cs
  induction cs with
  | nil =>
      intro c isAlt
      have hw : chainWalk (.ifStmt c (some e)) = some ([c], e) := by
        simp [chainWalk, he]
      simp only [mkChain]
      rw [reportsAux_ifStmt]
      simp only [analyzeIf, hw]
      cases isAlt <;>
        cases hall : [c].all alwaysHasControlFlow <;>
          simp [hall, chainBodyReports, List.append_assoc]
  | cons c2 rest ih =>
      intro c isAlt
      have hw : chainWalk (.ifStmt c (some (mkChain (c2 :: rest) e)))
          = some (c :: c2 :: rest, e) := by
        have := chainWalk_mkChain e he (c2 :: rest) c
        simpa [mkChain_cons] using this
      have hmid := ih c2 true
      rw [mkChain_cons, reportsAux_ifStmt]
      simp only [analyzeIf, hw, hmid]
      cases isAlt <;>
        cases hall : (c :: c2 :: rest).all alwaysHasControlFlow <;>
          simp [hall, chainBodyReports_cons, List.append_assoc]

/-- C6 witness: the chain `if (c) { return; } else { f(); }` in head
position yields exactly one diagnostic, the final else body. -/
theorem C6_chain_anchored_once_witness :
    reportsAux false (mkChain [Node.block [.ret]] (.block [.other]))
      = chainBodyReports [Node.block [.ret]] ++ reportsAux true (.block [.other])
          ++ (if false then []
              else if [Node.block [.ret]].all alwaysHasControlFlow
                then [Node.block [.other]] else []) :=
  C6_chain_anchored_once (.block [.other]) rfl [] (.block [.ret]) false

theorem one_le_sizeOf_node (n : Node) : 1 ≤ sizeOf n := by
  cases n <;> simp_arith

theorem analyzeIf_toList_length (isAlt : Bool) (c : Node) (alt : Option Node) :
    (if isAlt then [] else (analyzeIf (.ifStmt c alt)).toList).length
      = if eligibleHead isAlt (.ifStmt c alt) then 1 else 0 := by
  cases isAlt <;> cases h : analyzeIf (.ifStmt c alt) <;>
    simp [eligibleHead, Node.isIf, h]

theorem countEligible_ifStmt (isAlt : Bool) (c : Node) (alt : Option Node) :
    countEligible isAlt (.ifStmt c alt)
      = countEligible false c +
          (match alt with
           | some a => countEligible true a
           | none => 0) +
        (if eligibleHead isAlt (.ifStmt c alt) then 1 else 0) := by
  cases isAlt <;> cases alt <;> rfl

theorem reports_length_eq_countEligible_aux :
    ∀ k : Nat,
      (∀ n : Node, sizeOf n ≤ k → ∀ isAlt : Bool,
          (reportsAux isAlt n).length = countEligible isAlt n)
      ∧ (∀ l : List Node, sizeOf l ≤ k →
          (reportsList l).length = countEligibleList l) := by
  intro k
  induction k with
  | zero =>
      constructor
      · intro n hn
        exact absurd hn (by cases n <;> simp)
      · intro l hl
        exact absurd hl (by cases l <;> simp)
  | succ k ih =>
      constructor
      · intro n hn isAlt
        cases n with
        | block body =>
            have hb : sizeOf body ≤ k := by
              simp only [Node.block.sizeOf_spec] at hn
              omega
            exact ih.2 body hb
        | ifStmt c alt =>
            have hsz : 1 + sizeOf c + sizeOf alt ≤ k + 1 := by
              simpa using hn
            have halt1 : 1 ≤ sizeOf alt := by
              cases alt <;> simp_arith
            have hc : sizeOf c ≤ k := by omega
            cases alt with
            | none =>
                rw [reportsAux_ifStmt, countEligible_ifStmt]
                simp only [List.length_append, analyzeIf_toList_length,
                  ih.1 c hc false, List.length_nil]
            | some a =>
                have ha : sizeOf a ≤ k := by
                  simp only [Option.some.sizeOf_spec] at hsz
                  have := one_le_sizeOf_node c
                  omega
                rw [reportsAux_ifStmt, countEligible_ifStmt]
                simp only [List.length_append, analyzeIf_toList_length,
                  ih.1 c hc false, ih.1 a ha true]
        | ret => rfl
        | thr => rfl
        | brk => rfl
        | cont => rfl
        | other => rfl
      · intro l hl
        cases l with
        | nil => rfl
        | cons n rest =>
            have hsz : 1 + sizeOf n + sizeOf rest ≤ k + 1 := by
              simpa using hl
            have hrest1 : 1 ≤ sizeOf rest := by
              cases rest <;> simp_arith
            have hn' : sizeOf n ≤ k := by omega
            have hr : sizeOf rest ≤ k := by
              have := one_le_sizeOf_node n
              omega
            show (reportsAux false n ++ reportsList rest).length
                = countEligible false n + countEligibleList rest
            rw [List.length_append, ih.1 n hn' false, ih.2 rest hr]

/-- C8 amended: the number of diagnostics emitted equals the number of
independent chain-head positions that are eligible under the code's
own classifier (`eligibleHead`: head position, conditional, analysis
yields a report), for every input AST and traversal position; and the
nested input of scenario 5 yields exactly two diagnostics — the inner
chain's final else first, then the outer chain's. -/
theorem C8_diagnostic_count :
    (∀ (isAlt : Bool) (n : Node),
        (reportsAux isAlt n).length = countEligible isAlt n)
    ∧ ruleReports ast5 = [.block [.ret], .block [.ret]] :=
  ⟨fun isAlt n =>
      (reports_length_eq_countEligible_aux (sizeOf n)).1 n (Nat.le_refl _) isAlt,
   rfl⟩

theorem ok_bind {α β : Type} (a : α) (f : α → Except String β) :
    (Except.ok a >>= f : Except String β) = f a := rfl

theorem pure_ok {α : Type} (a : α) : (pure a : Except String α) = Except.ok a := rfl

theorem checkForControlJumpE_eq (n : Node) :
    checkForControlJumpE (some n) = .ok (checkForControlJump n) := rfl

theorem naiveHasControlJumpE_eq (n : Node) :
    naiveHasControlJumpE (some n) = .ok (naiveHasControlJump n) := by
  cases n with
  | block body =>
      cases h : body.getLast? with
      | none => simp [naiveHasControlJumpE, naiveHasControlJump, h, deref, ok_bind, pure_ok]
      | some lastChild =>
          simp [naiveHasControlJumpE, naiveHasControlJump, h, deref,
            checkForControlJumpE, ok_bind, pure_ok]
  | ifStmt c alt => rfl
  | ret => rfl
  | thr => rfl
  | brk => rfl
  | cont => rfl
  | other => rfl

theorem hasElseE_eq (n : Node) :
    hasElseE (some n) = .ok (hasElse n) := by
  cases n with
  | ifStmt c alt => cases alt <;> rfl
  | block body => rfl
  | ret => rfl
  | thr => rfl
  | brk => rfl
  | cont => rfl
  | other => rfl

theorem checkForIfE_eq (n : Node) :
    checkForIfE (some n) = .ok (checkForIf n) := by
  cases n with
  | ifStmt c alt =>
      cases alt with
      | none => rfl
      | some a =>
          show (if (!a.isIf) = true then
                  (do
                    let b ← naiveHasControlJumpE (some a)
                    if b = true then naiveHasControlJumpE (some c) else pure false)
                else pure false)
              = Except.ok (!a.isIf && naiveHasControlJump a && naiveHasControlJump c)
          simp only [naiveHasControlJumpE_eq]
          cases ha : a.isIf <;> cases h1 : naiveHasControlJump a <;>
            cases h2 : naiveHasControlJump c <;>
              simp [ha, h1, h2, ok_bind, pure_ok]
  | block body => rfl
  | ret => rfl
  | thr => rfl
  | brk => rfl
  | cont => rfl
  | other => rfl

theorem checkForControlJumpOrIfE_eq (n : Node) :
    checkForControlJumpOrIfE (some n) = .ok (checkForControlJumpOrIf n) := by
  cases h : checkForControlJump n <;>
    simp [checkForControlJumpOrIfE, checkForControlJumpOrIf, checkForControlJumpE,
      deref, ok_bind, pure_ok, h, checkForIfE_eq]

theorem anyE_eq (l : List Node) :
    anyE l = .ok (l.any checkForControlJumpOrIf) := by
  induction l with
  | nil => rfl
  | cons n rest ih =>
      cases h : checkForControlJumpOrIf n <;>
        simp [anyE, checkForControlJumpOrIfE_eq, h, ok_bind, pure_ok, ih]

theorem alwaysHasControlFlowE_eq (n : Node) :
    alwaysHasControlFlowE (some n) = .ok (alwaysHasControlFlow n) := by
  cases n with
  | block body =>
      simp [alwaysHasControlFlowE, alwaysHasControlFlow, deref, ok_bind, pure_ok, anyE_eq]
  | ifStmt c alt =>
      simp [alwaysHasControlFlowE, alwaysHasControlFlow, deref, ok_bind, pure_ok,
        checkForControlJumpOrIfE_eq]
  | ret =>
      simp [alwaysHasControlFlowE, alwaysHasControlFlow, deref, ok_bind, pure_ok,
        checkForControlJumpOrIfE_eq]
  | thr =>
      simp [alwaysHasControlFlowE, alwaysHasControlFlow, deref, ok_bind, pure_ok,
        checkForControlJumpOrIfE_eq]
  | brk =>
      simp [alwaysHasControlFlowE, alwaysHasControlFlow, deref, ok_bind, pure_ok,
        checkForControlJumpOrIfE_eq]
  | cont =>
      simp [alwaysHasControlFlowE, alwaysHasControlFlow, deref, ok_bind, pure_ok,
        checkForControlJumpOrIfE_eq]
  | other =>
      simp [alwaysHasControlFlowE, alwaysHasControlFlow, deref, ok_bind, pure_ok,
        checkForControlJumpOrIfE_eq]

theorem allE_eq (l : List Node) :
    allE l = .ok (l.all alwaysHasControlFlow) := by
  induction l with
  | nil => rfl
  | cons n rest ih =>
      cases h : alwaysHasControlFlow n <;>
        simp [allE, alwaysHasControlFlowE_eq, h, ok_bind, pure_ok, ih]

theorem chainWalkE_eq (n : Node) : chainWalkE n = .ok (chainWalk n) := by
  induction n using chainWalk.induct with
  | case1 c => rfl
  | case2 c a ha ih =>
      simp [chainWalkE, chainWalk, ha, ih, ok_bind, pure_ok]
  | case3 c a ha =>
      simp [chainWalkE, chainWalk, ha, pure_ok]
  | case4 t h1 h2 =>
      cases t with
      | ifStmt c alt =>
          cases alt with
          | none => exact absurd rfl (h1 c)
          | some a => exact absurd rfl (h2 c a)
      | block body => rfl
      | ret => rfl
      | thr => rfl
      | brk => rfl
      | cont => rfl
      | other => rfl

theorem analyzeIfE_eq (n : Node) : analyzeIfE n = .ok (analyzeIf n) := by
  cases h : chainWalk n with
  | none => simp [analyzeIfE, analyzeIf, chainWalkE_eq, h, ok_bind, pure_ok]
  | some p =>
      obtain ⟨cs, alt⟩ := p
      simp [analyzeIfE, analyzeIf, chainWalkE_eq, h, allE_eq, ok_bind, pure_ok]

/-- C9: the classifier and the chain analyzer are total over every
node shape of the data model — re-run in the exception-aware model in
which reading a property of `undefined` raises, they always return
`.ok` (never an error), agreeing with the pure functions; in
particular an empty block branch body and an alternate of an
unrecognised kind are handled by failing the tests, not by raising. -/
theorem C9_totality (n : Node) :
    naiveHasControlJumpE (some n) = .ok (naiveHasControlJump n)
    ∧ alwaysHasControlFlowE (some n) = .ok (alwaysHasControlFlow n)
    ∧ analyzeIfE n = .ok (analyzeIf n) :=
  ⟨naiveHasControlJumpE_eq n, alwaysHasControlFlowE_eq n, analyzeIfE_eq n⟩

/-- C10: the two implementations diverge on the repository's own test
input `foop` (`if (x) { return x; } else if (y) { return false; }`,
src/tests/lib/rules/no-useless-else.js lines 164-167): the
AST-classifier rule aborts the walk at the alternate-less inner `if`
and reports nothing, while the code-path-based variant reports the
first `else` (the test file expects that diagnostic). -/
theorem C10_implementations_diverge :
    ruleReports astFoop = []
    ∧ cpReports astFoop = [.ifStmt (.block [.ret]) none]
    ∧ neverFallsThrough (.block [.ret]) = true :=
  ⟨rfl, rfl, rfl⟩
example : alwaysHasControlFlow (.block [.ret, .other]) = true := by rfl
example : naiveHasControlJump (.block [.ret, .other]) = false := by rfl
example : ruleReports (.block [.ifStmt (.block [.ret]) (some (.block [.ret]))]) =
    [.block [.ret]] := by rfl
example : ruleReports (.block [.ifStmt (.block [.ret]) (some (.block [.ret]))]) =
    [.block [.ret]] := by simp [ruleReports, reportsAux, reportsList, analyzeIf, chainWalk,
      alwaysHasControlFlow, checkForControlJumpOrIf, checkForIf, checkForControlJump,
      naiveHasControlJump, Node.isIf]

end NoUselessElse
